import Mathlib

/-!
Shallow embedding of the investment-recommendation pipeline
(backend/main.py, backend/indian_stock_api.py, backend/us_tickers.py,
backend/indian_tickers.py) and proofs about its specified behaviour.

Python floats are modelled as rationals, JSON payloads as an inductive
value type, and Python exceptions as an explicit error type returned in
an Except monad.
-/

/-- Errors a modelled Python expression can raise. -/
inductive PyErr where
  | attributeError
  | typeError
  | valueError
deriving DecidableEq

/-- JSON values, the shape of parsed API responses.  Numbers are modelled
as rationals. -/
inductive JVal where
  | null
  | bool (b : Bool)
  | num (q : ℚ)
  | str (s : String)
  | arr (elems : List JVal)
  | obj (fields : List (String × JVal))

/-- Python truthiness of a JSON value: None, False, 0, empty string,
empty list and empty dict are falsy. -/
def pyTruthy : JVal → Bool
  | .null => false
  | .bool b => b
  | .num q => q != 0
  | .str s => s != ""
  | .arr [] => false
  | .arr (_ :: _) => true
  | .obj [] => false
  | .obj (_ :: _) => true

/-- Lookup of a key in the field list of a JSON object (dict access). -/
def jLookup (fields : List (String × JVal)) (key : String) : Option JVal :=
  List.lookup key fields

/-- Python dict.get(key, default) on a value already known to be a dict. -/
def dictGetD (fields : List (String × JVal)) (key : String) (dflt : JVal) : JVal :=
  (jLookup fields key).getD dflt

/-- Python dict.get(key) on a value already known to be a dict
(missing key gives None). -/
def dictGet (fields : List (String × JVal)) (key : String) : JVal :=
  dictGetD fields key .null

/-- Python value.get(key, default) on an arbitrary value: raises
AttributeError when the receiver is not a dict (in particular on a
list). -/
def pyGetAttr (v : JVal) (key : String) (dflt : JVal) : Except PyErr JVal :=
  match v with
  | .obj fields => .ok (dictGetD fields key dflt)
  | _ => .error .attributeError

/-- Python for-loop iteration over a value: lists yield their elements,
dicts yield their keys, strings yield one-character strings; other
values are not iterable (TypeError). -/
def pyIter : JVal → Except PyErr (List JVal)
  | .arr elems => .ok elems
  | .obj fields => .ok (fields.map (fun kv => JVal.str kv.1))
  | .str s => .ok (s.data.map (fun c => JVal.str (String.singleton c)))
  | _ => .error .typeError

/-- Python `a or b`: the left operand when truthy, otherwise the right. -/
def pyOr (a b : JVal) : JVal :=
  if pyTruthy a then a else b

/-- Python str() of a JSON value.  Scalars are rendered as Python
renders them; the rendering of containers is a placeholder, as no code
path under verification converts a container to a string. -/
def pyStr : JVal → String
  | .str s => s
  | .num q => toString q
  | .bool b => if b then "True" else "False"
  | .null => "None"
  | .arr _ => "[...]"
  | .obj _ => "{...}"

/-- Whitespace characters stripped by Python str.strip() (ASCII range;
the code under verification never feeds non-ASCII whitespace). -/
def isPySpace (c : Char) : Bool :=
  c ∈ ([' ', '\t', '\n', '\r', Char.ofNat 11, Char.ofNat 12] : List Char)

/-- Python str.strip(): drop leading and trailing whitespace. -/
def pyStrip (s : String) : String :=
  ⟨((s.data.dropWhile isPySpace).reverse.dropWhile isPySpace).reverse⟩

/-- Numeric value of a list of decimal digit characters. -/
def digitsVal (l : List Char) : ℕ :=
  l.foldl (fun acc c => 10 * acc + (c.toNat - 48)) 0

/-- Python float(string): optional surrounding whitespace, optional
sign, decimal digits with an optional decimal point.  Scientific
notation, underscores, inf and nan are not modelled; no input under
verification uses them. -/
def parsePyFloatString (s : String) : Option ℚ :=
  let t := (pyStrip s).data
  let signAndDigits : ℚ × List Char :=
    match t with
    | '-' :: rest => (-1, rest)
    | '+' :: rest => (1, rest)
    | l => (1, l)
  let sign := signAndDigits.1
  let digits := signAndDigits.2
  let intPart := digits.takeWhile (fun c => c ≠ '.')
  let rest := digits.dropWhile (fun c => c ≠ '.')
  let fracPart := match rest with
    | '.' :: fs => fs
    | _ => []
  if intPart.all Char.isDigit && fracPart.all Char.isDigit &&
      (intPart ≠ [] || fracPart ≠ []) then
    some (sign * ((digitsVal intPart : ℚ) +
      (digitsVal fracPart : ℚ) / (10 : ℚ) ^ fracPart.length))
  else
    none

/-- Python float() conversion: numbers pass through, booleans become
0/1, numeric strings are parsed (ValueError on a non-numeric string),
anything else raises TypeError. -/
def pyFloat : JVal → Except PyErr ℚ
  | .num q => .ok q
  | .bool b => .ok (if b then 1 else 0)
  | .str s =>
    match parsePyFloatString s with
    | some q => .ok q
    | none => .error .valueError
  | _ => .error .typeError

/-!
Embedding of backend/main.py: the sentiment scorer, the recommendation
thresholds, the TTL cache, the MCP enhancement step and the
recommendation aggregation, together with the ticker universe from
backend/us_tickers.py and backend/indian_tickers.py.
-/

/-- Python dict assignment d[k] = v: replace the binding when the key is
present, otherwise append it (dicts preserve insertion order). -/
def pyDictSet {β : Type} : List (String × β) → String → β → List (String × β)
  | [], k, v => [(k, v)]
  | (k1, v1) :: rest, k, v =>
    if k1 = k then (k, v) :: rest else (k1, v1) :: pyDictSet rest k v

/-- Python del d[k]: remove the binding for the key. -/
def pyDictDel {β : Type} (d : List (String × β)) (k : String) : List (String × β) :=
  d.filter (fun e => e.1 ≠ k)

/-- US_TICKERS of backend/us_tickers.py. -/
def US_TICKERS : List String :=
  ["AAPL", "MSFT", "GOOGL", "AMZN", "NVDA", "META", "TSLA", "AVGO", "ADBE",
   "NFLX", "INTC", "CSCO", "CRM", "AMD", "ORCL",
   "UNH", "LLY", "PFE", "ABBV", "MRK", "JNJ", "TMO", "MDT", "BMY", "AMGN",
   "JPM", "BAC", "WFC", "C", "GS", "MS", "V", "MA", "BLK", "AXP",
   "XOM", "CVX", "COP", "SLB", "EOG", "MPC", "PSX", "KMI", "OXY", "VLO",
   "WMT", "COST", "PG", "KO", "PEP"]

/-- INDIAN_TICKERS of backend/indian_tickers.py. -/
def INDIAN_TICKERS : List String :=
  ["TCS.NS", "INFY.NS", "HCLTECH.NS", "WIPRO.NS", "TECHM.NS", "LTIM.NS",
   "MINDTREE.NS", "MPHASIS.NS", "COFORGE.NS", "ZENSAR.NS",
   "HDFCBANK.NS", "ICICIBANK.NS", "SBIN.NS", "AXISBANK.NS", "KOTAKBANK.NS",
   "INDUSINDBK.NS", "BANDHANBNK.NS", "FEDERALBNK.NS", "IDFCFIRSTB.NS",
   "RBLBANK.NS",
   "SUNPHARMA.NS", "DRREDDY.NS", "CIPLA.NS", "LUPIN.NS", "AUROPHARMA.NS",
   "TORNTPHARM.NS", "GLENMARK.NS", "CADILAHC.NS", "DIVISLAB.NS", "BIOCON.NS",
   "HINDUNILVR.NS", "ITC.NS", "NESTLEIND.NS", "BRITANNIA.NS", "DABUR.NS",
   "MARICO.NS", "GODREJCP.NS", "COLPAL.NS", "EMAMILTD.NS", "JUBLFOOD.NS",
   "RELIANCE.NS", "ONGC.NS", "IOC.NS", "BPCL.NS", "GAIL.NS",
   "MARUTI.NS", "TATAMOTORS.NS", "M&M.NS", "BAJAJ-AUTO.NS", "EICHERMOT.NS",
   "TATASTEEL.NS", "JSWSTEEL.NS", "VEDL.NS",
   "BHARTIARTL.NS",
   "LT.NS", "ADANIPORTS.NS", "ULTRACEMCO.NS",
   "HDFC.NS", "BAJFINANCE.NS"]

/-- TICKERS = US_TICKERS + INDIAN_TICKERS (main.py line 17). -/
def TICKERS : List String := US_TICKERS ++ INDIAN_TICKERS

/-- Turn an average polarity score into Buy / Hold / Sell
(main.py, _recommendation_from_score). -/
def recommendation_from_score (score : ℚ) : String :=
  if score ≥ 0.10 then "Buy"
  else if score ≤ -0.05 then "Sell"
  else "Hold"

/-- TextBlob polarity / subjectivity helper (main.py, _analyze_sentiment).
The TextBlob model itself is an opaque environment parameter: the code
only ever calls it on non-empty stripped text.  The input is optional
because the Python parameter can be None, which the expression
(text or "") maps to the empty string. -/
def analyze_sentiment (textblob : String → ℚ × ℚ) (text : Option String) : ℚ × ℚ :=
  let t := pyStrip (text.getD "")
  if t = "" then (0, 0) else textblob t

/-- CACHE_TTL = 300 seconds (main.py line 21). -/
def CACHE_TTL : ℚ := 300

/-- The in-memory cache: key to (data, timestamp).  Time is passed
explicitly instead of read from the clock. -/
def Cache (α : Type) : Type := List (String × (α × ℚ))

/-- Store data in cache with the given timestamp
(main.py, _set_cache; now stands for time.time()). -/
def set_cache {α : Type} (c : Cache α) (key : String) (data : α) (now : ℚ) : Cache α :=
  pyDictSet c key (data, now)

/-- Get cached data if still valid (main.py, _get_cache; now stands for
time.time()).  Returns the possibly-updated cache together with the
lookup result, since an expired entry is deleted. -/
def get_cache {α : Type} (c : Cache α) (key : String) (now : ℚ) : Cache α × Option α :=
  match List.lookup key c with
  | none => (c, none)
  | some (data, ts) =>
    if now - ts > CACHE_TTL then (pyDictDel c key, none) else (c, some data)

/-- Python round(x, 2) (round half to even, on the rational model). -/
def pyRound2 (q : ℚ) : ℚ :=
  let scaled := q * 100
  let fl : ℤ := ⌊scaled⌋
  let frac := scaled - fl
  let r : ℤ :=
    if frac < 1/2 then fl
    else if frac > 1/2 then fl + 1
    else if 2 ∣ fl then fl else fl + 1
  (r : ℚ) / 100

/-- Value stored in the factors dict of an enhanced recommendation: the
sentiment entry is a number; a technical entry would carry the rsi field
of the technical-indicators dict (the only field the enhancement code
reads). -/
inductive FactorVal where
  | num (q : ℚ)
  | tech (rsi : Option ℚ)

/-- Result shape of _enhance_recommendation_with_mcp (main.py). -/
structure EnhancedRec where
  ticker : String
  avg_polarity : ℚ
  recommendation : String
  confidence : ℚ
  factors : List (String × FactorVal)

/-- Enhance recommendation using MCP tools (main.py,
_enhance_recommendation_with_mcp).  The mcp_technicals parameter is the
environment: the RSI that backend.mcp_integration.get_technical_indicators
would report for a ticker (none when unavailable).  The source comments
out both enrichment fetches ("Skip technical indicators for now to avoid
timeouts", lines 261-275), so the body never consults it and factors only
ever holds the sentiment entry; the RSI block below (lines 279-287 of the
source) is embedded as written but is reachable only when a technical
entry exists. -/
def enhance_recommendation_with_mcp (mcp_technicals : String → Option ℚ)
    (ticker : String) (sentiment_score : ℚ) (base_rec : String) : EnhancedRec :=
  let factors : List (String × FactorVal) := [("sentiment", .num sentiment_score)]
  let confidence : ℚ := 0.5
  let recAndConf : String × ℚ :=
    match List.lookup "technical" factors with
    | some (.tech rsi) =>
      match rsi with
      | some r =>
        if r ≠ 0 then
          if r < 30 ∧ base_rec = "Hold" then ("Buy", confidence + 0.1)
          else if r > 70 ∧ base_rec = "Buy" then ("Hold", confidence - 0.1)
          else (base_rec, confidence)
        else (base_rec, confidence)
      | none => (base_rec, confidence)
    | _ => (base_rec, confidence)
  let clamped := max 0.3 (min 1.0 recAndConf.2)
  { ticker := ticker
    avg_polarity := sentiment_score
    recommendation := recAndConf.1
    confidence := pyRound2 clamped
    factors := factors }

/-!
Embedding of backend/indian_stock_api.py: the schema-tolerant news and
price-history parsers and the fetch_news auth/retry flow.  The network
is an explicit oracle mapping requests to outcomes; an outcome is either
an HTTP response (status plus parsed JSON body) or a raised
requests.exceptions.RequestException.
-/

/-- Container selection of IndianStockAPI._parse_news (lines 166-172):
the or-chain over .get("data"), .get("articles"), .get("news"),
.get("results") and the isinstance-list fallback.  Each .get raises
AttributeError when the response is not a dict, so the fallback arm for
a list response is unreachable. -/
def selectNewsContainer (api_response : JVal) : Except PyErr JVal := do
  let d ← pyGetAttr api_response "data" (.arr [])
  if pyTruthy d then return d
  let a ← pyGetAttr api_response "articles" (.arr [])
  if pyTruthy a then return a
  let w ← pyGetAttr api_response "news" (.arr [])
  if pyTruthy w then return w
  let r ← pyGetAttr api_response "results" (.arr [])
  if pyTruthy r then return r
  return (match api_response with
    | .arr elems => .arr elems
    | _ => .arr [])

/-- Normalized news record (values keep their raw JSON type, as the
source copies them without coercion). -/
structure NewsItem where
  ticker : String
  title : JVal
  summary : JVal
  publisher : JVal
  link : JVal

/-- Field extraction for one news dict item
(IndianStockAPI._parse_news, lines 179-188). -/
def newsItemOfDict (ticker : String) (f : List (String × JVal)) : NewsItem :=
  { ticker := ticker
    title := dictGetD f "title" (dictGetD f "headline" (.str ""))
    summary := dictGetD f "summary"
      (dictGetD f "description" (dictGetD f "content" (.str "")))
    publisher :=
      match dictGet f "source" with
      | .obj sf => dictGetD sf "name" (.str "")
      | _ => dictGetD f "source" (dictGetD f "publisher" (dictGetD f "author" (.str "")))
    link := dictGetD f "url" (dictGetD f "link" (dictGetD f "webUrl" (.str ""))) }

/-- Parse an API news response into the standardized format
(IndianStockAPI._parse_news).  Non-dict items are skipped. -/
def parse_news (api_response : JVal) (ticker : String) : Except PyErr (List NewsItem) := do
  let container ← selectNewsContainer api_response
  let items ← pyIter container
  return items.filterMap (fun item =>
    match item with
    | .obj f => some (newsItemOfDict ticker f)
    | _ => none)

/-- Container selection of IndianStockAPI._parse_price_history
(lines 198-206), with keys data, prices, history, candles, datasets. -/
def selectPriceContainer (api_response : JVal) : Except PyErr JVal := do
  let d ← pyGetAttr api_response "data" (.arr [])
  if pyTruthy d then return d
  let p ← pyGetAttr api_response "prices" (.arr [])
  if pyTruthy p then return p
  let h ← pyGetAttr api_response "history" (.arr [])
  if pyTruthy h then return h
  let c ← pyGetAttr api_response "candles" (.arr [])
  if pyTruthy c then return c
  let ds ← pyGetAttr api_response "datasets" (.arr [])
  if pyTruthy ds then return ds
  return (match api_response with
    | .arr elems => .arr elems
    | _ => .arr [])

/-- Result of the price-history parser: parallel date and close lists. -/
structure PriceHistory where
  dates : List String
  closes : List ℚ
deriving DecidableEq

/-- The guard on line 212 of the source: prices is a non-empty list whose
first element is a dict with a truthy "values" entry. -/
def datasetShape : JVal → Bool
  | .arr (.obj f :: _) => pyTruthy (dictGet f "values")
  | _ => false

/-- prices[0].get("values", []) under the dataset guard. -/
def datasetValues : JVal → JVal
  | .arr (.obj f :: _) => dictGetD f "values" (.arr [])
  | _ => .arr []

/-- One [date, price] entry of the dataset branch (lines 214-221).  The
source appends str(date_str) to dates before float(close_price) is
evaluated; a ValueError/TypeError from the conversion is caught and the
loop continues, so a failed conversion leaves the date appended with no
matching close. -/
def priceEntryStep (acc : List String × List ℚ) (entry : JVal) : List String × List ℚ :=
  match entry with
  | .arr (date_val :: close_val :: _) =>
    match pyFloat close_val with
    | .ok q => (acc.1 ++ [pyStr date_val], acc.2 ++ [q])
    | .error _ => (acc.1 ++ [pyStr date_val], acc.2)
  | _ => acc

/-- The dataset branch: iterate the values sequence and collect pairs. -/
def datasetValuesParse (values : JVal) : Except PyErr PriceHistory := do
  let entries ← pyIter values
  let dc := entries.foldl priceEntryStep ([], [])
  return ⟨dc.1, dc.2⟩

/-- One item of the flat object-list branch (lines 224-249): synonymous
date and close field names, truthiness guard, then the same
append-date-then-convert-close pattern as the dataset branch. -/
def flatItemStep (acc : List String × List ℚ) (item : JVal) : List String × List ℚ :=
  match item with
  | .obj f =>
    let date_str := pyOr (dictGet f "date")
      (pyOr (dictGet f "timestamp") (pyOr (dictGet f "time") (dictGet f "datetime")))
    let close_price := pyOr (dictGet f "close")
      (pyOr (dictGet f "closePrice") (pyOr (dictGet f "c") (dictGet f "price")))
    if pyTruthy date_str && pyTruthy close_price then
      match pyFloat close_price with
      | .ok q => (acc.1 ++ [pyStr date_str], acc.2 ++ [q])
      | .error _ => (acc.1 ++ [pyStr date_str], acc.2)
    else acc
  | _ => acc

/-- The flat object-list branch of the price parser. -/
def flatPricesParse (prices : JVal) : Except PyErr PriceHistory := do
  let items ← pyIter prices
  let dc := items.foldl flatItemStep ([], [])
  return ⟨dc.1, dc.2⟩

/-- Dispatch between the dataset shape and the flat shape on a selected
container (IndianStockAPI._parse_price_history after line 206). -/
def parsePricesVal (prices : JVal) : Except PyErr PriceHistory :=
  if datasetShape prices then datasetValuesParse (datasetValues prices)
  else flatPricesParse prices

/-- Parse an API price-history response into the standardized format
(IndianStockAPI._parse_price_history). -/
def parse_price_history (api_response : JVal) : Except PyErr PriceHistory := do
  let prices ← selectPriceContainer api_response
  parsePricesVal prices

/-- Client configuration (IndianStockAPI fields api_key, base_url,
auth_header). -/
structure APIConfig where
  api_key : String
  base_url : String
  auth_header : String

/-- Request headers with authentication (IndianStockAPI._get_headers). -/
def get_headers (cfg : APIConfig) : List (String × String) :=
  if cfg.auth_header.toLower = "authorization" then
    [("Authorization", "Bearer " ++ cfg.api_key),
     ("Content-Type", "application/json"), ("Accept", "application/json")]
  else if cfg.auth_header.toLower = "x-api-key" then
    [("X-API-Key", cfg.api_key),
     ("Content-Type", "application/json"), ("Accept", "application/json")]
  else
    [(cfg.auth_header, cfg.api_key),
     ("Content-Type", "application/json"), ("Accept", "application/json")]

/-- Authentication as query parameters (IndianStockAPI._get_auth_params). -/
def get_auth_params (cfg : APIConfig) : List (String × String) :=
  [("api_key", cfg.api_key)]

/-- An outgoing HTTP GET request: url, headers and query parameters. -/
structure Request where
  url : String
  headers : List (String × String)
  params : List (String × String)
deriving DecidableEq

/-- Outcome of a request: an HTTP response with a status code and a
parsed JSON body, or a raised requests.exceptions.RequestException. -/
inductive HttpOutcome where
  | resp (status : ℕ) (body : JVal)
  | exc

/-- ticker.replace(".NS", "").replace(".BO", "") (fetch_news line 73). -/
def cleanTicker (ticker : String) : String :=
  (ticker.replace ".NS" "").replace ".BO" ""

/-- The first news request: header authentication plus the documented
stock_name/limit parameters (fetch_news lines 76-80). -/
def newsRequest1 (cfg : APIConfig) (ticker : String) (limit : ℤ) : Request :=
  { url := cfg.base_url ++ "/news"
    headers := get_headers cfg
    params := [("stock_name", cleanTicker ticker), ("limit", toString limit)] }

/-- The retry request: no auth headers, api_key merged into the query
parameters (fetch_news line 84). -/
def newsRequest2 (cfg : APIConfig) (ticker : String) (limit : ℤ) : Request :=
  { url := cfg.base_url ++ "/news"
    headers := []
    params := get_auth_params cfg ++
      [("stock_name", cleanTicker ticker), ("limit", toString limit)] }

/-- Fetch news for a ticker (IndianStockAPI.fetch_news): header auth
first; on a non-200 response one retry with the api_key as a query
parameter; a non-200 retry or a RequestException yields the empty list.
Returns the trace of issued requests together with the result; a parser
exception on a 200 body propagates (only RequestException is caught in
the source). -/
def fetch_news (cfg : APIConfig) (net : Request → HttpOutcome) (ticker : String)
    (limit : ℤ) : List Request × Except PyErr (List NewsItem) :=
  let req1 := newsRequest1 cfg ticker limit
  match net req1 with
  | .exc => ([req1], .ok [])
  | .resp status body =>
    if status = 200 then ([req1], parse_news body ticker)
    else
      let req2 := newsRequest2 cfg ticker limit
      match net req2 with
      | .exc => ([req1, req2], .ok [])
      | .resp status2 body2 =>
        if status2 = 200 then ([req1, req2], parse_news body2 ticker)
        else ([req1, req2], .ok [])

/-!
Embedding of the recommendation aggregation (main.py, recommendations):
grouping of per-article sentiment by ticker, averaging, enhancement and
reordering along the canonical TICKERS list.
-/

/-- One row of the sentiment() output, restricted to the fields the
aggregation reads. -/
structure SentimentRecord where
  ticker : String
  polarity : ℚ

/-- by_ticker.setdefault(t, []).append(p): append to the list of an
existing key, otherwise add the key at the end (dict insertion order). -/
def upsertPolarity : List (String × List ℚ) → String → ℚ → List (String × List ℚ)
  | [], t, p => [(t, [p])]
  | (k, ps) :: rest, t, p =>
    if k = t then (k, ps ++ [p]) :: rest else (k, ps) :: upsertPolarity rest t p

/-- The grouping loop of recommendations (main.py lines 217-220). -/
def groupByTicker (sentiments : List SentimentRecord) : List (String × List ℚ) :=
  sentiments.foldl (fun m r => upsertPolarity m r.ticker r.polarity) []

/-- A recommendations() row: the enhanced recommendation plus the
news_count added afterwards (main.py line 233). -/
structure RecRow extends EnhancedRec where
  news_count : ℕ

/-- Body of the per-group loop of recommendations (main.py lines
223-235): skip an empty score list, average the polarities, apply the
thresholds, enhance, then attach news_count. -/
def recRowOfGroup (mcp_technicals : String → Option ℚ)
    (ts : String × List ℚ) : Option RecRow :=
  if ts.2.isEmpty then none
  else
    let avg_sentiment := ts.2.sum / (ts.2.length : ℚ)
    let base_rec := recommendation_from_score avg_sentiment
    let enhanced := enhance_recommendation_with_mcp mcp_technicals ts.1
      avg_sentiment base_rec
    some ⟨enhanced, ts.2.length⟩

/-- Aggregate sentiment into per-ticker recommendations
(main.py, recommendations, lines 206-245), as a function of the
sentiment() rows and of the technicals environment threaded to the
enhancement step. -/
def recommendations (mcp_technicals : String → Option ℚ)
    (sentiments : List SentimentRecord) : List RecRow :=
  if sentiments.isEmpty then []
  else
    let by_ticker := groupByTicker sentiments
    let output : List RecRow := by_ticker.filterMap (recRowOfGroup mcp_technicals)
    let ticker_to_row := output.foldl (fun d row => pyDictSet d row.ticker row) []
    TICKERS.filterMap (fun t => List.lookup t ticker_to_row)

/-!
Concrete inputs used by the claim theorems and witnesses.
-/

/-- A dataset-shaped price-history payload carrying the value pairs
[["2024-01-01", 100.5], ["2024-01-02", 101.0]] (100.5 written as the
rational mkRat 201 2). -/
def datasetPayload : JVal :=
  .obj [("datasets", .arr [.obj [("values", .arr
    [.arr [.str "2024-01-01", .num (mkRat 201 2)],
     .arr [.str "2024-01-02", .num 101]])]])]

/-- Fields of a price item matching both the nested-dataset shape (a
"values" entry) and the flat shape (date/close entries), to exhibit
which shape the parser prefers. -/
def mixedShapeFields : List (String × JVal) :=
  [("values", .arr [.arr [.str "2024-03-01", .num 7]]),
   ("date", .str "2024-03-02"), ("close", .num 9)]

/-- A flat price-history payload whose first point has a close that
fails float() conversion. -/
def orphanPayload : JVal :=
  .obj [("data", .arr
    [.obj [("date", .str "2024-01-01"), ("close", .str "bad")],
     .obj [("date", .str "2024-01-02"), ("close", .num 101)]])]

/-- A concrete client configuration for fetch_news witnesses. -/
def cfg0 : APIConfig :=
  { api_key := "demo-key", base_url := "https://stock.indianapi.in",
    auth_header := "x-api-key" }

/-- A network oracle that answers every request with HTTP 403. -/
def net403 : Request → HttpOutcome := fun _ => .resp 403 .null

/-!
Helper lemmas: evaluation of the enhancement step, string stripping,
and dictionary / grouping properties used by the ordering proof.
-/

/-- Rounding the clamped base confidence: round(max(0.3, min(1.0, 0.5)), 2)
is 0.5. -/
theorem pyRound2_half : pyRound2 (max 0.3 (min 1.0 0.5)) = 0.5 := by
  have hmin : (min (1.0 : ℚ) 0.5) = 0.5 := by norm_num
  have hmax : (max (0.3 : ℚ) 0.5) = 0.5 := by norm_num
  rw [hmin, hmax]
  have h1 : ((0.5 : ℚ) * 100) = ((50 : ℤ) : ℚ) := by norm_num
  simp only [pyRound2, h1, Int.floor_intCast]
  norm_num

/-- With both enrichment fetches commented out, the enhancement step is
a pure record constructor: base recommendation, confidence 0.5 and a
sentiment-only factors dict, independent of the technicals environment. -/
theorem enhance_eval (env : String → Option ℚ) (t : String) (s : ℚ) (b : String) :
    enhance_recommendation_with_mcp env t s b =
      { ticker := t, avg_polarity := s, recommendation := b, confidence := 0.5,
        factors := [("sentiment", .num s)] } := by
  have hl : List.lookup "technical" [("sentiment", FactorVal.num s)] = none := by
    simp [List.lookup]
  simp only [enhance_recommendation_with_mcp, hl]
  rw [pyRound2_half]

/-- The enhancement step echoes its ticker argument. -/
theorem enhance_ticker (env : String → Option ℚ) (t : String) (s : ℚ) (b : String) :
    (enhance_recommendation_with_mcp env t s b).ticker = t := by
  rw [enhance_eval]

/-- Stripping a string of whitespace characters only gives the empty
string. -/
theorem pyStrip_of_all_space (s : String) (h : s.data.all isPySpace = true) :
    pyStrip s = "" := by
  have h1 : s.data.dropWhile isPySpace = [] := by
    rw [List.dropWhile_eq_nil_iff]
    intro x hx
    exact List.all_eq_true.mp h x hx
  simp [pyStrip, h1]

/-- Looking up the key just written by dict assignment returns the new
value. -/
theorem lookup_pyDictSet_self {β : Type} (d : List (String × β)) (k : String) (v : β) :
    List.lookup k (pyDictSet d k v) = some v := by
  induction d with
  | nil => simp [pyDictSet, List.lookup]
  | cons e rest ih =>
    obtain ⟨k1, v1⟩ := e
    by_cases hk : k1 = k
    · simp [pyDictSet, hk, List.lookup]
    · have hbeq : (k == k1) = false := beq_eq_false_iff_ne.mpr (Ne.symm hk)
      simp [pyDictSet, hk, List.lookup, hbeq, ih]

/-- Looking up a deleted key returns nothing. -/
theorem lookup_pyDictDel_self {β : Type} (d : List (String × β)) (k : String) :
    List.lookup k (pyDictDel d k) = none := by
  induction d with
  | nil => rfl
  | cons e rest ih =>
    obtain ⟨k1, v1⟩ := e
    by_cases hk : k1 = k
    · have hdel : pyDictDel ((k1, v1) :: rest) k = pyDictDel rest k := by
        simp [pyDictDel, List.filter_cons, hk]
      rw [hdel]
      exact ih
    · have hdel : pyDictDel ((k1, v1) :: rest) k = (k1, v1) :: pyDictDel rest k := by
        simp [pyDictDel, List.filter_cons, hk]
      rw [hdel]
      have hbeq : (k == k1) = false := beq_eq_false_iff_ne.mpr (Ne.symm hk)
      simp [List.lookup, hbeq, ih]

/-- A successful association-list lookup locates a member pair. -/
theorem mem_of_lookup_eq_some {β : Type} (d : List (String × β)) (x : String) (r : β)
    (h : List.lookup x d = some r) : (x, r) ∈ d := by
  induction d with
  | nil => simp [List.lookup] at h
  | cons e rest ih =>
    obtain ⟨k1, v1⟩ := e
    by_cases hx : x = k1
    · subst hx
      simp [List.lookup] at h
      rw [← h]
      exact List.mem_cons_self _ _
    · have hbeq : (x == k1) = false := beq_eq_false_iff_ne.mpr hx
      simp [List.lookup, hbeq] at h
      exact List.mem_cons_of_mem _ (ih h)

/-- A key is present after dict assignment exactly when it is the
written key or was present before. -/
theorem lookup_pyDictSet_isSome_iff {β : Type} (d : List (String × β)) (k : String)
    (v : β) (x : String) :
    (List.lookup x (pyDictSet d k v)).isSome = true ↔
      x = k ∨ (List.lookup x d).isSome = true := by
  induction d with
  | nil =>
    by_cases hx : x = k
    · simp [pyDictSet, List.lookup, hx]
    · have hbeq : (x == k) = false := beq_eq_false_iff_ne.mpr hx
      simp [pyDictSet, List.lookup, hbeq, hx]
  | cons e rest ih =>
    obtain ⟨k1, v1⟩ := e
    by_cases hk : k1 = k
    · subst hk
      by_cases hx : x = k1
      · simp [pyDictSet, List.lookup, hx]
      · have hbeq : (x == k1) = false := beq_eq_false_iff_ne.mpr hx
        simp [pyDictSet, List.lookup, hbeq, hx]
    · by_cases hx : x = k1
      · have hbeq : (x == k1) = true := beq_iff_eq.mpr hx
        simp [pyDictSet, hk, List.lookup, hbeq]
      · have hbeq : (x == k1) = false := beq_eq_false_iff_ne.mpr hx
        simp [pyDictSet, hk, List.lookup, hbeq, ih]

/-- A row produced by the per-group loop carries the ticker of its
group key. -/
theorem recRowOfGroup_ticker (env : String → Option ℚ) (ts : String × List ℚ)
    (r : RecRow) (h : recRowOfGroup env ts = some r) : r.ticker = ts.1 := by
  by_cases he : ts.2.isEmpty
  · simp [recRowOfGroup, he] at h
  · simp only [recRowOfGroup, he, Bool.false_eq_true, if_false, Option.some.injEq] at h
    rw [← h]
    exact enhance_ticker env ts.1 (ts.2.sum / (ts.2.length : ℚ))
      (recommendation_from_score (ts.2.sum / (ts.2.length : ℚ)))

/-- Dict assignment preserves an entry-wise property. -/
theorem pyDictSet_entries {β : Type} (P : String × β → Prop) :
    ∀ (d : List (String × β)) (k : String) (v : β),
      (∀ e ∈ d, P e) → P (k, v) → ∀ e ∈ pyDictSet d k v, P e := by
  intro d
  induction d with
  | nil =>
    intro k v _ hv e he
    simp [pyDictSet] at he
    rw [he]
    exact hv
  | cons e0 rest ih =>
    intro k v hd hv e he
    obtain ⟨k1, v1⟩ := e0
    by_cases hk : k1 = k
    · simp only [pyDictSet, hk, if_true] at he
      rcases List.mem_cons.mp he with he | he
      · rw [he]; exact hv
      · exact hd _ (List.mem_cons_of_mem _ he)
    · simp only [pyDictSet, hk, if_false] at he
      rcases List.mem_cons.mp he with he | he
      · rw [he]; exact hd _ (List.mem_cons_self _ _)
      · exact ih k v (fun e2 he2 => hd e2 (List.mem_cons_of_mem _ he2)) hv e he

/-- Every entry of the ticker_to_row dict built from recommendation rows
is keyed by the ticker of its row. -/
theorem rowfold_entries (rows : List RecRow) :
    ∀ (d : List (String × RecRow)), (∀ e ∈ d, (e.2).ticker = e.1) →
      ∀ e ∈ rows.foldl (fun d row => pyDictSet d row.ticker row) d,
        (e.2).ticker = e.1 := by
  induction rows with
  | nil =>
    intro d hd
    simpa using hd
  | cons r rest ih =>
    intro d hd
    simp only [List.foldl_cons]
    exact ih _ (pyDictSet_entries (fun e => (e.2).ticker = e.1) d r.ticker r hd rfl)

/-- A ticker is present in the ticker_to_row dict exactly when it was
present already or some folded row carries it. -/
theorem lookup_rowfold_isSome_iff (rows : List RecRow) :
    ∀ (d : List (String × RecRow)) (x : String),
      (List.lookup x (rows.foldl (fun d row => pyDictSet d row.ticker row) d)).isSome
          = true ↔
        (List.lookup x d).isSome = true ∨ ∃ r ∈ rows, r.ticker = x := by
  induction rows with
  | nil => intro d x; simp
  | cons r rest ih =>
    intro d x
    simp only [List.foldl_cons]
    rw [ih, lookup_pyDictSet_isSome_iff]
    constructor
    · rintro ((hx | hd2) | ⟨q, hq, hqx⟩)
      · exact Or.inr ⟨r, List.mem_cons_self _ _, hx.symm⟩
      · exact Or.inl hd2
      · exact Or.inr ⟨q, List.mem_cons_of_mem _ hq, hqx⟩
    · rintro (hd2 | ⟨q, hq, hqx⟩)
      · exact Or.inl (Or.inr hd2)
      · rcases List.mem_cons.mp hq with hq | hq
        · exact Or.inl (Or.inl (by rw [hq] at hqx; exact hqx.symm))
        · exact Or.inr ⟨q, hq, hqx⟩

/-- setdefault-append introduces exactly the upserted key. -/
theorem exists_key_upsert (m : List (String × List ℚ)) (t : String) (p : ℚ) (x : String) :
    (∃ e ∈ upsertPolarity m t p, e.1 = x) ↔ (∃ e ∈ m, e.1 = x) ∨ t = x := by
  induction m with
  | nil => simp [upsertPolarity]
  | cons e rest ih =>
    obtain ⟨k, ps⟩ := e
    by_cases hk : k = t
    · simp only [upsertPolarity, hk, if_true]
      simp [List.exists_mem_cons_iff, hk]
      tauto
    · simp only [upsertPolarity, hk, if_false]
      simp [List.exists_mem_cons_iff, ih]
      tauto

/-- Keys of the grouping fold: the initial keys plus the tickers of the
folded sentiment rows. -/
theorem exists_key_groupfold (rows : List SentimentRecord) :
    ∀ (m : List (String × List ℚ)) (x : String),
      (∃ e ∈ rows.foldl (fun m r => upsertPolarity m r.ticker r.polarity) m, e.1 = x) ↔
        (∃ e ∈ m, e.1 = x) ∨ ∃ s ∈ rows, s.ticker = x := by
  induction rows with
  | nil => intro m x; simp
  | cons r rest ih =>
    intro m x
    simp only [List.foldl_cons]
    rw [ih, exists_key_upsert]
    simp [List.exists_mem_cons_iff]
    tauto

/-- A ticker is a group key exactly when some sentiment row carries it. -/
theorem groupByTicker_keys (sentiments : List SentimentRecord) (x : String) :
    (∃ e ∈ groupByTicker sentiments, e.1 = x) ↔ ∃ s ∈ sentiments, s.ticker = x := by
  simpa [groupByTicker] using exists_key_groupfold sentiments [] x

/-- setdefault-append never leaves an empty polarity list. -/
theorem upsert_values_ne_nil (m : List (String × List ℚ)) (t : String) (p : ℚ)
    (h : ∀ e ∈ m, e.2 ≠ []) : ∀ e ∈ upsertPolarity m t p, e.2 ≠ [] := by
  induction m with
  | nil =>
    intro e he
    simp [upsertPolarity] at he
    rw [he]
    simp
  | cons e0 rest ih =>
    intro e he
    obtain ⟨k, ps⟩ := e0
    by_cases hk : k = t
    · simp only [upsertPolarity, hk, if_true] at he
      rcases List.mem_cons.mp he with he | he
      · rw [he]; simp
      · exact h _ (List.mem_cons_of_mem _ he)
    · simp only [upsertPolarity, hk, if_false] at he
      rcases List.mem_cons.mp he with he | he
      · rw [he]; exact h _ (List.mem_cons_self _ _)
      · exact ih (fun e2 he2 => h e2 (List.mem_cons_of_mem _ he2)) e he

/-- The grouping fold preserves non-empty polarity lists. -/
theorem groupfold_values_ne_nil (rows : List SentimentRecord) :
    ∀ (m : List (String × List ℚ)), (∀ e ∈ m, e.2 ≠ []) →
      ∀ e ∈ rows.foldl (fun m r => upsertPolarity m r.ticker r.polarity) m, e.2 ≠ [] := by
  induction rows with
  | nil =>
    intro m hm
    simpa using hm
  | cons r rest ih =>
    intro m hm
    simp only [List.foldl_cons]
    exact ih _ (upsert_values_ne_nil m r.ticker r.polarity hm)

/-- Every group of the grouping loop has at least one polarity. -/
theorem groupByTicker_values_ne_nil (sentiments : List SentimentRecord) :
    ∀ e ∈ groupByTicker sentiments, e.2 ≠ [] := by
  simpa [groupByTicker] using groupfold_values_ne_nil sentiments [] (by simp)

/-- When every group is non-empty, the output rows carry exactly the
group keys. -/
theorem exists_output_ticker (env : String → Option ℚ) (bt : List (String × List ℚ))
    (x : String) (hne : ∀ e ∈ bt, e.2 ≠ []) :
    (∃ r ∈ bt.filterMap (recRowOfGroup env), r.ticker = x) ↔ ∃ e ∈ bt, e.1 = x := by
  constructor
  · rintro ⟨r, hr, hrx⟩
    rcases List.mem_filterMap.mp hr with ⟨e, he, hfe⟩
    refine ⟨e, he, ?_⟩
    rw [← recRowOfGroup_ticker env e r hfe]
    exact hrx
  · rintro ⟨e, he, hex⟩
    have hne2 : e.2.isEmpty = false := by
      cases h2 : e.2 with
      | nil => exact absurd h2 (hne e he)
      | cons a l => rfl
    refine ⟨⟨enhance_recommendation_with_mcp env e.1 (e.2.sum / (e.2.length : ℚ))
        (recommendation_from_score (e.2.sum / (e.2.length : ℚ))), e.2.length⟩,
      List.mem_filterMap.mpr ⟨e, he, ?_⟩, ?_⟩
    · simp [recRowOfGroup, hne2]
    · show (enhance_recommendation_with_mcp env e.1 _ _).ticker = x
      rw [enhance_ticker]
      exact hex

/-- Reordering by lookup: mapping the looked-up rows back to their
tickers gives the filter of the keys that are present. -/
theorem map_filterMap_lookup (L : List String) (d : List (String × RecRow))
    (hd : ∀ x r, List.lookup x d = some r → r.ticker = x) :
    (L.filterMap (fun t => List.lookup t d)).map (fun r => r.ticker)
      = L.filter (fun t => (List.lookup t d).isSome) := by
  induction L with
  | nil => rfl
  | cons t rest ih =>
    cases hl : List.lookup t d with
    | none => simp [List.filterMap_cons, List.filter_cons, hl, ih]
    | some r => simp [List.filterMap_cons, List.filter_cons, hl, ih, hd t r hl]

/-!
Claim theorems.
-/

/-- Claim C1: for every score s, the base-recommendation function
returns "Buy" when s is at least 0.10, "Sell" when s is at most -0.05,
and "Hold" strictly between; both boundaries are inclusive. -/
theorem recommendation_from_score_thresholds (s : ℚ) :
    (0.10 ≤ s → recommendation_from_score s = "Buy") ∧
    (s ≤ -0.05 → recommendation_from_score s = "Sell") ∧
    (-0.05 < s → s < 0.10 → recommendation_from_score s = "Hold") := by
  refine ⟨fun h => ?_, fun h => ?_, fun h1 h2 => ?_⟩
  · simp [recommendation_from_score, h]
  · have hlt : ¬ (s ≥ 0.10) := by
      intro hc
      nlinarith
    simp [recommendation_from_score, hlt, h]
  · have hA : ¬ (s ≥ 0.10) := not_le.2 h2
    have hB : ¬ (s ≤ -0.05) := not_le.2 h1
    simp [recommendation_from_score, hA, hB]

/-- Claim C1, witness: the thresholds applied at the boundary scores
0.10 and -0.05. -/
theorem recommendation_from_score_thresholds_witness :
    ((0.10 : ℚ) ≤ 0.10 ∧ recommendation_from_score 0.10 = "Buy") ∧
    ((-0.05 : ℚ) ≤ -0.05 ∧ recommendation_from_score (-0.05) = "Sell") :=
  ⟨⟨le_refl _, (recommendation_from_score_thresholds 0.10).1 (le_refl _)⟩,
   ⟨le_refl _, (recommendation_from_score_thresholds (-0.05)).2.1 (le_refl _)⟩⟩

/-- Claim C2, counterexample: with avg_polarity 0.0 (base Hold) and an
environment whose technical data reports RSI 20, the enhancement step
still returns "Hold", not "Buy" with confidence 0.7 as claimed, because
the technical fetch is commented out in main.py. -/
theorem enhance_rsi20_counterexample :
    (enhance_recommendation_with_mcp (fun _ => some 20) "TCS.NS" 0 "Hold").recommendation
        = "Hold" ∧
    ¬ ((enhance_recommendation_with_mcp (fun _ => some 20) "TCS.NS" 0 "Hold").recommendation
          = "Buy" ∧
       (enhance_recommendation_with_mcp (fun _ => some 20) "TCS.NS" 0 "Hold").confidence
          = 0.7) := by
  rw [enhance_eval]
  refine ⟨rfl, fun hc => ?_⟩
  exact absurd hc.1 (by decide)

/-- Claim C2, amended: for a ticker whose avg_polarity is 0.0 (base
recommendation Hold), the enhancement step returns "Hold" with
confidence 0.5 whatever RSI the technicals environment would report,
since enrichment fetching is disabled. -/
theorem enhance_hold_amended (env : String → Option ℚ) (t : String) :
    (enhance_recommendation_with_mcp env t 0 "Hold").recommendation = "Hold" ∧
    (enhance_recommendation_with_mcp env t 0 "Hold").confidence = 0.5 := by
  rw [enhance_eval]
  exact ⟨rfl, rfl⟩

/-- Claim C3: the rows returned by recommendations() are ordered exactly
as the canonical TICKERS list — their tickers are the TICKERS filtered to
those with at least one sentiment record — so a ticker with zero
sentiment records is omitted from the output altogether. -/
theorem recommendations_order_and_omission (env : String → Option ℚ)
    (sentiments : List SentimentRecord) :
    (recommendations env sentiments).map (fun r => r.ticker) =
      TICKERS.filter (fun t => sentiments.any (fun s => s.ticker == t)) := by
  cases hs : sentiments.isEmpty with
  | true =>
    have hnil : sentiments = [] := List.isEmpty_iff.mp hs
    subst hnil
    simp [recommendations]
  | false =>
    have hd : ∀ x r, List.lookup x
        (((groupByTicker sentiments).filterMap (recRowOfGroup env)).foldl
          (fun d row => pyDictSet d row.ticker row) []) = some r → r.ticker = x := by
      intro x r hl
      exact rowfold_entries _ [] (by simp) _ (mem_of_lookup_eq_some _ x r hl)
    have hbool : ∀ (a b : Bool), (a = true ↔ b = true) → a = b := by decide
    simp only [recommendations, hs, Bool.false_eq_true, if_false]
    rw [map_filterMap_lookup _ _ hd]
    apply List.filter_congr
    intro t ht
    apply hbool
    rw [lookup_rowfold_isSome_iff]
    rw [exists_output_ticker env _ t (groupByTicker_values_ne_nil sentiments)]
    rw [groupByTicker_keys]
    rw [List.any_eq_true]
    simp

/-- Claim C4: on empty or whitespace-only input (a missing text
included), the sentiment scorer returns exactly polarity 0.0 and
subjectivity 0.0, and the result does not depend on the underlying
TextBlob model, which is therefore not consulted. -/
theorem analyze_sentiment_whitespace (tb tb2 : String → ℚ × ℚ) (text : Option String)
    (h : (text.getD "").data.all isPySpace = true) :
    analyze_sentiment tb text = (0, 0) ∧
    analyze_sentiment tb text = analyze_sentiment tb2 text := by
  unfold analyze_sentiment
  rw [pyStrip_of_all_space _ h]
  simp

/-- Claim C4, witness: the scorer applied to the whitespace-only text
consisting of two spaces and a tab, under an arbitrary nonzero model. -/
theorem analyze_sentiment_whitespace_witness :
    (((some "  \t" : Option String).getD "").data.all isPySpace = true) ∧
    analyze_sentiment (fun _ => (1, 1)) (some "  \t") = (0, 0) :=
  ⟨by decide,
   (analyze_sentiment_whitespace (fun _ => (1, 1)) (fun _ => (2, 2)) (some "  \t")
     (by decide)).1⟩

/-- Claim C5: contrary to the claim, a JSON news response that is a
top-level list is not accepted as the article container: the parser
raises AttributeError, because api_response.get is called before the
isinstance-list fallback can apply.  This evaluates the embedded parser
at a failing input: a list holding one article object with a title. -/
theorem parse_news_list_raises :
    parse_news (.arr [.obj [("title", .str "x")]]) "RELIANCE" = .error .attributeError := rfl

/-- Claim C6: the price-history parser applied to the dataset-shaped
payload with pairs [["2024-01-01", 100.5], ["2024-01-02", 101.0]]
returns exactly those dates and closes, and whenever the selected
container has a first element with a truthy "values" entry the
nested-dataset branch is taken, in preference to the flat object-list
branch. -/
theorem parse_price_history_dataset_roundtrip :
    ((mkRat 201 2 : ℚ) = 100.5 ∧
     parse_price_history datasetPayload =
       .ok ⟨["2024-01-01", "2024-01-02"], [mkRat 201 2, 101]⟩) ∧
    (∀ (f : List (String × JVal)) (rest : List JVal),
      pyTruthy (dictGet f "values") = true →
      parsePricesVal (.arr (.obj f :: rest)) =
        datasetValuesParse (dictGetD f "values" (.arr []))) := by
  refine ⟨⟨by rw [Rat.mkRat_eq_div]; norm_num, rfl⟩, fun f rest h => ?_⟩
  have hshape : datasetShape (.arr (.obj f :: rest)) = true := h
  simp only [parsePricesVal, hshape, if_true, datasetValues]

/-- Claim C6, witness: the dataset branch is taken on a container whose
first element carries both a "values" entry and flat date/close
fields. -/
theorem parse_price_history_dataset_roundtrip_witness :
    pyTruthy (dictGet mixedShapeFields "values") = true ∧
    parsePricesVal (.arr [.obj mixedShapeFields]) =
      datasetValuesParse (dictGetD mixedShapeFields "values" (.arr [])) :=
  ⟨rfl, parse_price_history_dataset_roundtrip.2 mixedShapeFields [] rfl⟩

/-- Claim C7: contrary to the claim, a point whose close fails float()
conversion is not skipped as a whole: its date has already been
appended, so the parser returns two dates but only one close for the
orphan payload, and the dates and closes lists diverge in length. -/
theorem parse_price_history_orphan_date :
    parse_price_history orphanPayload =
      .ok ⟨["2024-01-01", "2024-01-02"], [101]⟩ ∧
    (["2024-01-01", "2024-01-02"].length = 2 ∧ [(101 : ℚ)].length = 1) :=
  ⟨rfl, by decide⟩

/-- Claim C8: fetch_news issues the header-authenticated request first;
on any non-200 response it retries exactly once with the api_key merged
into the query parameters and no auth headers; a non-200 retry, a
RequestException on the retry, or a RequestException on the first
request all yield the empty list without raising. -/
theorem fetch_news_auth_retry_fallback (cfg : APIConfig) (net : Request → HttpOutcome)
    (ticker : String) (limit : ℤ) :
    ((fetch_news cfg net ticker limit).1.head? = some (newsRequest1 cfg ticker limit) ∧
      (newsRequest1 cfg ticker limit).headers = get_headers cfg) ∧
    (∀ status body, net (newsRequest1 cfg ticker limit) = .resp status body → status ≠ 200 →
      (fetch_news cfg net ticker limit).1 =
          [newsRequest1 cfg ticker limit, newsRequest2 cfg ticker limit] ∧
      ("api_key", cfg.api_key) ∈ (newsRequest2 cfg ticker limit).params ∧
      (newsRequest2 cfg ticker limit).headers = [] ∧
      (∀ status2 body2, net (newsRequest2 cfg ticker limit) = .resp status2 body2 →
        status2 ≠ 200 → (fetch_news cfg net ticker limit).2 = .ok []) ∧
      (net (newsRequest2 cfg ticker limit) = .exc →
        (fetch_news cfg net ticker limit).2 = .ok [])) ∧
    (net (newsRequest1 cfg ticker limit) = .exc →
      fetch_news cfg net ticker limit = ([newsRequest1 cfg ticker limit], .ok [])) := by
  refine ⟨⟨?_, rfl⟩, ?_, ?_⟩
  · cases hn : net (newsRequest1 cfg ticker limit) with
    | exc => simp [fetch_news, hn]
    | resp status body =>
      by_cases hs : status = 200
      · simp [fetch_news, hn, hs]
      · cases hn2 : net (newsRequest2 cfg ticker limit) with
        | exc => simp [fetch_news, hn, hs, hn2]
        | resp status2 body2 =>
          by_cases hs2 : status2 = 200 <;> simp [fetch_news, hn, hs, hn2, hs2]
  · intro status body hn h200
    refine ⟨?_, ?_, rfl, ?_, ?_⟩
    · cases hn2 : net (newsRequest2 cfg ticker limit) with
      | exc => simp [fetch_news, hn, h200, hn2]
      | resp status2 body2 =>
        by_cases hs2 : status2 = 200 <;> simp [fetch_news, hn, h200, hn2, hs2]
    · simp [newsRequest2, get_auth_params]
    · intro status2 body2 hn2 h200b
      simp [fetch_news, hn, h200, hn2, h200b]
    · intro hn2
      simp [fetch_news, hn, h200, hn2]
  · intro hn
    simp [fetch_news, hn]

/-- Claim C8, witness: under a network that answers 403 to everything,
both requests are issued and the call returns the empty list. -/
theorem fetch_news_auth_retry_fallback_witness :
    net403 (newsRequest1 cfg0 "RELIANCE.NS" 10) = .resp 403 .null ∧
    net403 (newsRequest2 cfg0 "RELIANCE.NS" 10) = .resp 403 .null ∧
    (fetch_news cfg0 net403 "RELIANCE.NS" 10).2 = .ok [] :=
  ⟨rfl, rfl,
   ((fetch_news_auth_retry_fallback cfg0 net403 "RELIANCE.NS" 10).2.1 403 .null rfl
       (by decide)).2.2.2.1 403 .null rfl (by decide)⟩

/-- Claim C9: a lookup within the 300-second TTL returns the stored
value unchanged with the cache intact; a lookup whose age strictly
exceeds the TTL returns nothing and evicts the entry, so the key is no
longer present. -/
theorem cache_ttl_roundtrip (α : Type) (c : Cache α) (key : String) (data : α)
    (t now : ℚ) :
    (now - t ≤ CACHE_TTL →
      get_cache (set_cache c key data t) key now = (set_cache c key data t, some data)) ∧
    (now - t > CACHE_TTL →
      (get_cache (set_cache c key data t) key now).2 = none ∧
      List.lookup key (get_cache (set_cache c key data t) key now).1 = none) := by
  simp only [get_cache, set_cache, lookup_pyDictSet_self]
  constructor
  · intro h
    rw [if_neg (not_lt.2 h)]
  · intro h
    rw [if_pos h]
    exact ⟨rfl, lookup_pyDictDel_self _ _⟩

/-- Claim C9, witness: a value stored at time 0 is still returned at
time 100 and is evicted at time 400. -/
theorem cache_ttl_roundtrip_witness :
    ((100 : ℚ) - 0 ≤ CACHE_TTL ∧
      get_cache (set_cache ([] : Cache ℕ) "news_all" 7 0) "news_all" 100 =
        (set_cache ([] : Cache ℕ) "news_all" 7 0, some 7)) ∧
    ((400 : ℚ) - 0 > CACHE_TTL ∧
      (get_cache (set_cache ([] : Cache ℕ) "news_all" 7 0) "news_all" 400).2 = none ∧
      List.lookup "news_all"
        (get_cache (set_cache ([] : Cache ℕ) "news_all" 7 0) "news_all" 400).1 = none) :=
  ⟨⟨by simp only [CACHE_TTL, sub_zero]; decide,
    (cache_ttl_roundtrip ℕ [] "news_all" 7 0 100).1
      (by simp only [CACHE_TTL, sub_zero]; decide)⟩,
   ⟨by simp only [CACHE_TTL, sub_zero, gt_iff_lt]; decide,
    (cache_ttl_roundtrip ℕ [] "news_all" 7 0 400).2
      (by simp only [CACHE_TTL, sub_zero, gt_iff_lt]; decide)⟩⟩

/-- Claim C10: for every ticker, score and base recommendation, the
enhancement step in main.py returns confidence exactly 0.5, a factors
dict holding only the sentiment key, and the base recommendation
unchanged, independently of the technicals environment — the RSI
override is unreachable because enrichment fetching is disabled. -/
theorem enhance_disabled_enrichment (env env2 : String → Option ℚ) (t : String)
    (s : ℚ) (b : String) :
    (enhance_recommendation_with_mcp env t s b).confidence = 0.5 ∧
    (enhance_recommendation_with_mcp env t s b).factors = [("sentiment", .num s)] ∧
    (enhance_recommendation_with_mcp env t s b).recommendation = b ∧
    enhance_recommendation_with_mcp env t s b = enhance_recommendation_with_mcp env2 t s b := by
  rw [enhance_eval, enhance_eval]
  exact ⟨rfl, rfl, rfl, rfl⟩
